import Mathlib

/-!
Shallow embedding of the counter-sampling and rate-derivation engine of the
sysstats library (Go). Machine integers: Go `uint64` values are modelled as
`Nat` with explicit wraparound modulo `2 ^ 64` where the code can overflow;
Go `int64` timestamps are modelled as `Int`. Go `float64` values are modelled
as exact rationals, with `none` standing for a non-finite result (NaN or an
infinity); in this code a non-finite value arises only from dividing by a
zero time or tick delta, and `fmt.Sprintf("%3.2f")` followed by
`strconv.ParseFloat` round-trips non-finite values unchanged, which
`Option.map round2` mirrors. Go maps keyed by strings are modelled as
association lists in which a lookup returns the first matching binding and a
map write replaces the binding; Go map iteration order is unspecified, so the
list order is one faithful iteration order. Error values are modelled as
`Except String`; the message texts are abridged.
-/

namespace Sysstats

/-- Modulus of Go uint64 arithmetic. -/
def U64 : Nat := 2 ^ 64

/-- Go uint64 subtraction `a - b`, wrapping modulo `2 ^ 64` (inputs are
assumed to be below `2 ^ 64`, as every uint64 value is). -/
def usub (a b : Nat) : Nat := (U64 + a - b) % U64

/-- Finite Go float64 values as exact rationals; `none` is NaN or an
infinity. -/
abbrev GoFloat := Option ℚ

/-- Go float64 division: a zero divisor yields a non-finite value
(NaN for 0/0, an infinity otherwise), modelled as `none`. -/
def fdiv (x y : ℚ) : GoFloat := if y = 0 then none else some (x / y)

/-- Go float64 subtraction on possibly non-finite operands: any operation
with a NaN operand is NaN (`100 - NaN = NaN`). -/
def fsub (a b : GoFloat) : GoFloat :=
  match a, b with
  | some x, some y => some (x - y)
  | _, _ => none

/-- Rounding to 2 decimal places, the effect of Go
`strconv.ParseFloat(fmt.Sprintf("%3.2f", x), 64)` on a finite value. -/
def round2 (x : ℚ) : ℚ := ((⌊x * 100 + 1 / 2⌋ : ℤ) : ℚ) / 100

/-- Association-list model of a Go map with string keys. -/
abbrev SMap (α : Type) := List (String × α)

/-- Map lookup: first matching binding. -/
def lookupA {α : Type} (k : String) : SMap α → Option α
  | [] => none
  | (k1, v) :: rest => if k1 = k then some v else lookupA k rest

/-- Go map read with the zero value as default for a missing key. -/
def lookupD {α : Type} (m : SMap α) (k : String) (d : α) : α :=
  (lookupA k m).getD d

/-- Go map write `m[k] = v`: replaces any existing binding for `k`. -/
def setA {α : Type} (k : String) (v : α) (m : SMap α) : SMap α :=
  (k, v) :: m.filter (fun p => !(p.1 == k))

/-- Accumulates maximal runs of non-whitespace characters (`cur` holds the
current run, reversed). -/
def wordsAux : List Char → List Char → List (List Char)
  | [], cur => if cur.isEmpty then [] else [cur.reverse]
  | c :: cs, cur =>
    if c.isWhitespace then
      if cur.isEmpty then wordsAux cs [] else cur.reverse :: wordsAux cs []
    else wordsAux cs (c :: cur)

/-- Go `strings.Fields`: split around runs of whitespace. -/
def goFields (s : String) : List String :=
  (wordsAux s.data []).map fun w => String.mk w

/-- Decimal digit accumulation for `parseUint64`. -/
def parseDigits : List Char → Nat → Option Nat
  | [], acc => some acc
  | c :: cs, acc =>
    if c.isDigit then parseDigits cs (acc * 10 + (c.toNat - 48)) else none

/-- Go `strconv.ParseUint(s, 10, 64)`: `none` on a syntax error (empty
string, sign, or non-digit character) or on overflow past `2 ^ 64 - 1`. -/
def parseUint64 (s : String) : Option Nat :=
  match s.data with
  | [] => none
  | l =>
    match parseDigits l 0 with
    | none => none
    | some n => if n < U64 then some n else none

/-- Tests whether the first list is a leading segment of the second. -/
def leadMatch : List Char → List Char → Bool
  | [], _ => true
  | _ :: _, [] => false
  | p :: ps, c :: cs => p == c && leadMatch ps cs

/-- Go `strings.HasPrefix` / the anchored regular expression `cpu.*` applied
to a map key (the pattern `.*` also forbids an embedded newline, which no
/proc/stat cpu name contains). -/
def goStartsWith (s pat : String) : Bool := leadMatch pat.data s.data

/-- Boolean success test for an `Except` result. -/
def exceptOk {ε α : Type} : Except ε α → Bool
  | Except.ok _ => true
  | Except.error _ => false

deriving instance DecidableEq for Except

/-! ## CPU domain (cpustats, getCpuAvgStats variant)

Raw samples are maps from lowercase field names (`user`, `nice`, ...,
`guestnice`, plus the synthetic `total`) to uint64 tick counters. -/

abbrev CpuRawStats := SMap Nat
abbrev CpuAvgStats := SMap GoFloat
abbrev CpusRawStats := SMap CpuRawStats
abbrev CpusAvgStats := SMap CpuAvgStats

/-- Positional field names of a /proc/stat cpu record: indices 1 through 10
after the cpu name; later positions are parsed but not stored. -/
def cpuKeyOf : Nat → Option String
  | 1 => some "user"
  | 2 => some "nice"
  | 3 => some "system"
  | 4 => some "idle"
  | 5 => some "iowait"
  | 6 => some "irq"
  | 7 => some "softirq"
  | 8 => some "steal"
  | 9 => some "guest"
  | 10 => some "guestnice"
  | _ => none

/-- Loop body of `parseCpuRawStats`: every numeric field is added into the
running `total` (uint64 addition, wrapping) before the positional switch
stores it under its mode name. A field that fails `strconv.ParseUint`
aborts the parse with the error. -/
def parseCpuFields : List String → Nat → CpuRawStats → Except String CpuRawStats
  | [], _, m => Except.ok m
  | f :: rest, i, m =>
    match parseUint64 f with
    | none => Except.error "strconv.ParseUint: invalid syntax"
    | some stat =>
      let m1 := setA "total" ((lookupD m "total" 0 + stat) % U64) m
      let m2 :=
        match cpuKeyOf i with
        | some key => setA key stat m1
        | none => m1
      parseCpuFields rest (i + 1) m2

/-- Embeds `parseCpuRawStats` (unnamed/part_003): splits the record into
whitespace-separated fields, takes the first as the cpu name and parses every
remaining field as a uint64, with no check on the number of fields. The Go
code indexes `fields[0]` unconditionally and panics on an all-whitespace
record; that out-of-scope panic is modelled as an error. -/
def parseCpuRawStats (stats : String) : Except String (String × CpuRawStats) :=
  match goFields stats with
  | [] => Except.error "index out of range"
  | name :: rest =>
    match parseCpuFields rest 1 [] with
    | Except.error e => Except.error e
    | Except.ok m => Except.ok (name, m)

/-- Inner loop of `getCpuAvgStats`: for every key of the second raw sample
other than the (never-occurring, wrongly capitalised) literal `Total`, the
rate is `float64(second[key] - first[key]) * 100 / timeDelta` rounded to two
decimals; a missing key in the first sample reads as 0. -/
def cpuRates (firstRaw : CpuRawStats) (td : ℚ) : CpuRawStats → CpuAvgStats
  | [] => []
  | (k, v2) :: rest =>
    if k = "Total" then cpuRates firstRaw td rest
    else
      (k, (fdiv (((usub v2 (lookupD firstRaw k 0) : ℕ) : ℚ) * 100) td).map round2) ::
        cpuRates firstRaw td rest

/-- Per-cpu body of `getCpuAvgStats`: the tick delta is the uint64
difference of the two `total` fields, every field is averaged by
`cpuRates`, and the `total` entry is then overwritten with
`100 - cpuStats[idle]` (the already-rounded idle rate), rounded again. -/
def cpuAvgOne (firstRaw secondRaw : CpuRawStats) : CpuAvgStats :=
  let td : ℚ := ((usub (lookupD secondRaw "total" 0) (lookupD firstRaw "total" 0) : ℕ) : ℚ)
  let stats := cpuRates firstRaw td secondRaw
  setA "total" ((fsub (some 100) (lookupD stats "idle" (some 0))).map round2) stats

/-- Embeds `getCpuAvgStats` (unnamed/part_003): iterates over the second
snapshot; a cpu name not matching the anchored pattern `cpu.*` fails, a name
missing from the first snapshot fails, otherwise the per-cpu averages are
collected. -/
def getCpuAvgStats (first : CpusRawStats) : CpusRawStats → Except String CpusAvgStats
  | [] => Except.ok []
  | (name, m2) :: rest =>
    if goStartsWith name "cpu" then
      match lookupA name first with
      | none => Except.error ("The key " ++ name ++ " is missing from the first sample of CpusRawStats")
      | some m1 =>
        match getCpuAvgStats first rest with
        | Except.error e => Except.error e
        | Except.ok r => Except.ok ((name, cpuAvgOne m1 m2) :: r)
    else Except.error "cpuName does not match the pattern"

/-! ## Network domain (netstats_linux.go) -/

abbrev IfaceRawStats := SMap Nat
abbrev IfaceAvgStats := SMap GoFloat
abbrev NetRawStats := SMap IfaceRawStats
abbrev NetAvgStats := SMap IfaceAvgStats

/-- Positional field names of a /proc/net/dev record: indices 1 through 16
after the interface name; later positions are parsed but not stored. -/
def netKeyOf : Nat → Option String
  | 1 => some "rxbytes"
  | 2 => some "rxpkts"
  | 3 => some "rxerrs"
  | 4 => some "rxdrop"
  | 5 => some "rxfifo"
  | 6 => some "rxframe"
  | 7 => some "rxcompr"
  | 8 => some "rxmulti"
  | 9 => some "txbytes"
  | 10 => some "txpkts"
  | 11 => some "txerrs"
  | 12 => some "txdrop"
  | 13 => some "txfifo"
  | 14 => some "txcolls"
  | 15 => some "txcarr"
  | 16 => some "txcompr"
  | _ => none

/-- Loop body of `parseIfaceRawStats`: a field that fails
`strconv.ParseUint` aborts the parse with the error. -/
def parseIfaceFields : List String → Nat → IfaceRawStats → Except String IfaceRawStats
  | [], _, m => Except.ok m
  | f :: rest, i, m =>
    match parseUint64 f with
    | none => Except.error "strconv.ParseUint: invalid syntax"
    | some stat =>
      let m1 :=
        match netKeyOf i with
        | some key => setA key stat m
        | none => m
      parseIfaceFields rest (i + 1) m1

/-- Go code of `parseIfaceRawStats`: trim one trailing colon byte from the
interface name, if present. -/
def trimColon (s : String) : String :=
  match s.data.getLast? with
  | some c => if c = ':' then String.mk s.data.dropLast else s
  | none => s

/-- Embeds `parseIfaceRawStats` (netstats_linux.go): the first
whitespace-separated field is the interface name (with a trailing colon
stripped), every remaining field is parsed as a uint64, with no check on the
number of fields. The Go code indexes `fields[0]` unconditionally and panics
on an all-whitespace record; that out-of-scope panic is modelled as an
error. -/
def parseIfaceRawStats (stats : String) : Except String (String × IfaceRawStats) :=
  match goFields stats with
  | [] => Except.error "index out of range"
  | name :: rest =>
    match parseIfaceFields rest 1 [] with
    | Except.error e => Except.error e
    | Except.ok m => Except.ok (trimColon name, m)

/-- Inner loop of `getNetAvgStats`: for every key of the second raw sample
other than the snapshot timestamp key `time`, the rate is
`float64(second[key] - first[key]) / timeDelta`, unrounded; a missing key in
the first sample reads as 0. -/
def netRates (firstRaw : IfaceRawStats) (td : ℚ) : IfaceRawStats → IfaceAvgStats
  | [] => []
  | (k, v2) :: rest =>
    if k = "time" then netRates firstRaw td rest
    else
      (k, fdiv ((usub v2 (lookupD firstRaw k 0) : ℕ) : ℚ) td) :: netRates firstRaw td rest

/-- Per-interface body of `getNetAvgStats`: the elapsed time is the uint64
difference of the two stamped `time` fields. -/
def netAvgOne (firstRaw secondRaw : IfaceRawStats) : IfaceAvgStats :=
  netRates firstRaw
    ((usub (lookupD secondRaw "time" 0) (lookupD firstRaw "time" 0) : ℕ) : ℚ) secondRaw

/-- Embeds `getNetAvgStats` (netstats_linux.go): iterates over the second
snapshot; an interface name missing from the first snapshot fails, otherwise
the per-interface averages are collected. -/
def getNetAvgStats (first : NetRawStats) : NetRawStats → Except String NetAvgStats
  | [] => Except.ok []
  | (name, m2) :: rest =>
    match lookupA name first with
    | none => Except.error ("The key " ++ name ++ " is missing from the first sample of NetRawStats")
    | some m1 =>
      match getNetAvgStats first rest with
      | Except.error e => Except.error e
      | Except.ok r => Except.ok ((name, netAvgOne m1 m2) :: r)

/-! ## Disk domain (unnamed/part_001) -/

/-- Raw disk sample parsed from one /proc/diskstats record, stamped with a
capture time by `getDiskRawStats`. -/
structure DiskRawStats where
  Major : Int
  Minor : Int
  Name : String
  ReadIOs : Nat
  ReadMerges : Nat
  ReadSectors : Nat
  ReadTicks : Nat
  WriteIOs : Nat
  WriteMerges : Nat
  WriteSectors : Nat
  WriteTicks : Nat
  InFlight : Nat
  IOTicks : Nat
  TimeInQueue : Nat
  SampleTime : Int
deriving DecidableEq

/-- Derived disk statistics; the float64 fields are `GoFloat`. -/
structure DiskAvgStats where
  Major : Int
  Minor : Int
  Name : String
  ReadIOs : GoFloat
  ReadMerges : GoFloat
  ReadBytes : GoFloat
  WriteIOs : GoFloat
  WriteMerges : GoFloat
  WriteBytes : GoFloat
  InFlight : Nat
  IOTicks : Nat
  TimeInQueue : Nat
deriving DecidableEq

/-- Go `strconv.ParseUint(s, 10, 64)` with the error discarded, as
`parseDiskRawStats` does: a syntax error leaves the zero value 0 and a range
error leaves the clamped maximum. -/
def parseUintLenient (s : String) : Nat :=
  match s.data with
  | [] => 0
  | l =>
    match parseDigits l 0 with
    | none => 0
    | some n => if n < U64 then n else U64 - 1

/-- Go `strconv.ParseInt(s, 10, 64)` with the error discarded: a syntax
error leaves 0 and a range error leaves the clamped int64 bound. -/
def parseIntLenient (s : String) : Int :=
  let core : Bool → List Char → Int := fun neg l =>
    match l with
    | [] => 0
    | _ =>
      match parseDigits l 0 with
      | none => 0
      | some n =>
        if neg then if (n : Int) ≤ 2 ^ 63 then -(n : Int) else -(2 ^ 63)
        else if (n : Int) < 2 ^ 63 then (n : Int) else 2 ^ 63 - 1
  match s.data with
  | '-' :: rest => core true rest
  | '+' :: rest => core false rest
  | l => core false l

/-- Embeds `parseDiskRawStats` (unnamed/part_001): fails when the record
does not have exactly 14 whitespace-separated fields; each numeric field is
parsed with the `strconv` error silently discarded. `SampleTime` is the
struct zero value, stamped later by `getDiskRawStats`. -/
def parseDiskRawStats (stats : String) : Except String DiskRawStats :=
  let fields := goFields stats
  if fields.length ≠ 14 then
    Except.error "Could not parse disk stats because there are not 14 fields"
  else
    Except.ok
      { Major := parseIntLenient (fields.getD 0 "")
        Minor := parseIntLenient (fields.getD 1 "")
        Name := fields.getD 2 ""
        ReadIOs := parseUintLenient (fields.getD 3 "")
        ReadMerges := parseUintLenient (fields.getD 4 "")
        ReadSectors := parseUintLenient (fields.getD 5 "")
        ReadTicks := parseUintLenient (fields.getD 6 "")
        WriteIOs := parseUintLenient (fields.getD 7 "")
        WriteMerges := parseUintLenient (fields.getD 8 "")
        WriteSectors := parseUintLenient (fields.getD 9 "")
        WriteTicks := parseUintLenient (fields.getD 10 "")
        InFlight := parseUintLenient (fields.getD 11 "")
        IOTicks := parseUintLenient (fields.getD 12 "")
        TimeInQueue := parseUintLenient (fields.getD 13 "")
        SampleTime := 0 }

/-- Field assignments of `getDiskAvgStats` (unnamed/part_001): the
read/write counters are divided by the wall-clock delta of the stamped
sample times (sector counts are first converted to bytes by multiplying by
512, in uint64 arithmetic), `InFlight` and `TimeInQueue` are taken without
division, and `IOTicks` is never assigned, keeping the struct zero value 0. -/
def diskAvgRecord (f s : DiskRawStats) : DiskAvgStats :=
  let td : ℚ := ((s.SampleTime - f.SampleTime : Int) : ℚ)
  { Major := f.Major
    Minor := f.Minor
    Name := f.Name
    ReadIOs := fdiv ((usub s.ReadIOs f.ReadIOs : ℕ) : ℚ) td
    ReadMerges := fdiv ((usub s.ReadMerges f.ReadMerges : ℕ) : ℚ) td
    ReadBytes := fdiv ((usub (s.ReadSectors * 512 % U64) (f.ReadSectors * 512 % U64) : ℕ) : ℚ) td
    WriteIOs := fdiv ((usub s.WriteIOs f.WriteIOs : ℕ) : ℚ) td
    WriteMerges := fdiv ((usub s.WriteMerges f.WriteMerges : ℕ) : ℚ) td
    WriteBytes := fdiv ((usub (s.WriteSectors * 512 % U64) (f.WriteSectors * 512 % U64) : ℕ) : ℚ) td
    InFlight := s.InFlight
    IOTicks := 0
    TimeInQueue := usub s.TimeInQueue f.TimeInQueue }

/-- Embeds `getDiskAvgStats` (unnamed/part_001): fails when the two samples
do not agree on the (major, minor, name) identity triple; otherwise derives
the `diskAvgRecord` field assignments. -/
def getDiskAvgStats (f s : DiskRawStats) : Except String DiskAvgStats :=
  if f.Major ≠ s.Major ∨ f.Minor ≠ s.Minor ∨ f.Name ≠ s.Name then
    Except.error "The samples are from different disks"
  else
    Except.ok (diskAvgRecord f s)

/-- Linear scan of the second snapshot for a disk with the given name,
as the inner loop of `getDiskStatsInterval` performs. -/
def findByName (name : String) : List DiskRawStats → Option DiskRawStats
  | [] => none
  | d :: rest => if d.Name = name then some d else findByName name rest

/-- Embeds the derivation loop of `getDiskStatsInterval` (unnamed/part_001)
after the two raw snapshots have been captured (the /proc reads and the
sleep are I/O and are not modelled): for every sample of the first
snapshot, the second snapshot is scanned for a sample with the same name;
when one is found the pair is derived (an error aborts the whole call), and
when none is found the first-snapshot sample is skipped. Samples present
only in the second snapshot are never visited. -/
def diskStatsPairing (secondArr : List DiskRawStats) : List DiskRawStats → Except String (List DiskAvgStats)
  | [] => Except.ok []
  | f :: rest =>
    match findByName f.Name secondArr with
    | none => diskStatsPairing secondArr rest
    | some s =>
      match getDiskAvgStats f s with
      | Except.error e => Except.error e
      | Except.ok d =>
        match diskStatsPairing secondArr rest with
        | Except.error e => Except.error e
        | Except.ok r => Except.ok (d :: r)

/-! ## Process domain (procstats_linux.go) -/

/-- Instantaneous process gauges shared by the raw and derived structs. -/
structure ProcStats where
  Running : Nat
  Blocked : Nat
  RunQueue : Nat
  Total : Nat
deriving DecidableEq

/-- Raw process sample: cumulative fork counter plus gauges, stamped with
the capture time. -/
structure ProcRawStats extends ProcStats where
  Processes : Nat
  Time : Int
deriving DecidableEq

/-- Derived process statistics. `NewProcs` is a plain rational because the
division is guarded by a positive time delta. -/
structure ProcAvgStats extends ProcStats where
  NewProcs : ℚ
deriving DecidableEq

/-- Embeds `getProcAvgStats` (procstats_linux.go); the Go function always
returns a nil error, so no `Except` is needed. `NewProcs` is the uint64
fork-counter delta over the int64 time delta when the latter is positive and
0 otherwise; the four gauges are copied from the second sample. -/
def getProcAvgStats (f s : ProcRawStats) : ProcAvgStats :=
  let td : ℚ := ((s.Time - f.Time : Int) : ℚ)
  { NewProcs := if td > 0 then ((usub s.Processes f.Processes : ℕ) : ℚ) / td else 0
    Running := s.Running
    Blocked := s.Blocked
    RunQueue := s.RunQueue
    Total := s.Total }

/-! ## Helper lemmas -/

theorem usub_self (a : Nat) : usub a a = 0 := by
  simp [usub, U64]

theorem usub_eq_sub {a b : Nat} (h : b ≤ a) (hb : a < U64) : usub a b = a - b := by
  unfold usub
  have h1 : U64 + a - b = U64 + (a - b) := by omega
  have h2 : a - b < U64 := by omega
  rw [h1, Nat.add_mod_left, Nat.mod_eq_of_lt h2]

theorem fdiv_zero (x : ℚ) : fdiv x 0 = none := by
  simp [fdiv]

theorem fdiv_of_ne (x : ℚ) {y : ℚ} (h : y ≠ 0) : fdiv x y = some (x / y) := by
  simp [fdiv, h]

theorem lookupA_filter_ne {α : Type} (k k1 : String) (h : k1 ≠ k) (m : SMap α) :
    lookupA k1 (m.filter fun p => !(p.1 == k)) = lookupA k1 m := by
  induction m with
  | nil => rfl
  | cons p rest ih =>
    obtain ⟨k2, v⟩ := p
    rw [List.filter_cons]
    by_cases hk2 : k2 = k
    · subst hk2
      have hcond : ¬((!((k2, v).1 == k2)) = true) := by simp
      rw [if_neg hcond, ih, lookupA]
      have hne : ¬(k2 = k1) := fun hc => h (hc ▸ rfl)
      rw [if_neg hne]
    · have hcond : (!((k2, v).1 == k)) = true := by simp [hk2]
      rw [if_pos hcond, lookupA, lookupA, ih]

theorem lookupA_setA_self {α : Type} (k : String) (v : α) (m : SMap α) :
    lookupA k (setA k v m) = some v := by
  simp [setA, lookupA]

theorem lookupA_setA_ne {α : Type} {k k1 : String} (h : k1 ≠ k) (v : α) (m : SMap α) :
    lookupA k1 (setA k v m) = lookupA k1 m := by
  rw [setA, lookupA]
  have : ¬(k = k1) := fun hc => h (hc ▸ rfl)
  simp only [this, if_false]
  exact lookupA_filter_ne k k1 h m

theorem cpuRates_lookup (firstRaw : CpuRawStats) (td : ℚ) :
    ∀ (m : CpuRawStats) (k : String) (v2 : Nat), lookupA k m = some v2 → k ≠ "Total" →
      lookupA k (cpuRates firstRaw td m) =
        some ((fdiv (((usub v2 (lookupD firstRaw k 0) : ℕ) : ℚ) * 100) td).map round2) := by
  intro m
  induction m with
  | nil => intro k v2 h _; simp [lookupA] at h
  | cons p rest ih =>
    obtain ⟨k2, w⟩ := p
    intro k v2 h hT
    by_cases hk2 : k2 = "Total"
    · subst hk2
      rw [lookupA] at h
      have hne : ¬("Total" = k) := fun hc => hT (hc ▸ rfl)
      rw [if_neg hne] at h
      rw [cpuRates, if_pos rfl]
      exact ih k v2 h hT
    · rw [cpuRates, if_neg hk2]
      rw [lookupA] at h
      by_cases hkk : k2 = k
      · subst hkk
        rw [if_pos rfl] at h
        injection h with h
        subst h
        rw [lookupA, if_pos rfl]
      · rw [if_neg hkk] at h
        rw [lookupA, if_neg hkk]
        exact ih k v2 h hT

theorem netRates_lookup (firstRaw : IfaceRawStats) (td : ℚ) :
    ∀ (m : IfaceRawStats) (k : String) (v2 : Nat), lookupA k m = some v2 → k ≠ "time" →
      lookupA k (netRates firstRaw td m) =
        some (fdiv ((usub v2 (lookupD firstRaw k 0) : ℕ) : ℚ) td) := by
  intro m
  induction m with
  | nil => intro k v2 h _; simp [lookupA] at h
  | cons p rest ih =>
    obtain ⟨k2, w⟩ := p
    intro k v2 h hT
    by_cases hk2 : k2 = "time"
    · subst hk2
      rw [lookupA] at h
      have hne : ¬("time" = k) := fun hc => hT (hc ▸ rfl)
      rw [if_neg hne] at h
      rw [netRates, if_pos rfl]
      exact ih k v2 h hT
    · rw [netRates, if_neg hk2]
      rw [lookupA] at h
      by_cases hkk : k2 = k
      · subst hkk
        rw [if_pos rfl] at h
        injection h with h
        subst h
        rw [lookupA, if_pos rfl]
      · rw [if_neg hkk] at h
        rw [lookupA, if_neg hkk]
        exact ih k v2 h hT

theorem getCpuAvgStats_ok_lookup (first : CpusRawStats) :
    ∀ second : CpusRawStats,
      (∀ p ∈ second, goStartsWith p.1 "cpu" = true ∧ (lookupA p.1 first).isSome = true) →
      ∃ r, getCpuAvgStats first second = Except.ok r ∧
        ∀ name m2 m1, lookupA name second = some m2 → lookupA name first = some m1 →
          lookupA name r = some (cpuAvgOne m1 m2) := by
  intro second
  induction second with
  | nil =>
    intro _
    exact ⟨[], rfl, fun name m2 m1 h _ => by simp [lookupA] at h⟩
  | cons p rest ih =>
    obtain ⟨n, m⟩ := p
    intro h
    obtain ⟨hcpu, hsome⟩ := h (n, m) (List.mem_cons_self _ _)
    obtain ⟨m1x, hm1x⟩ : ∃ m1x, lookupA n first = some m1x := by
      cases hx : lookupA n first with
      | none => rw [hx] at hsome; simp [Option.isSome] at hsome
      | some v => exact ⟨v, rfl⟩
    obtain ⟨r', hr', hlook⟩ := ih fun q hq => h q (List.mem_cons_of_mem _ hq)
    refine ⟨(n, cpuAvgOne m1x m) :: r', ?_, ?_⟩
    · rw [getCpuAvgStats, if_pos hcpu, hm1x, hr']
    · intro name m2 m1 h2 h1
      rw [lookupA] at h2
      by_cases hn : n = name
      · subst hn
        rw [if_pos rfl] at h2
        injection h2 with h2
        subst h2
        rw [hm1x] at h1
        injection h1 with h1
        subst h1
        rw [lookupA, if_pos rfl]
      · rw [if_neg hn] at h2
        rw [lookupA, if_neg hn]
        exact hlook name m2 m1 h2 h1

theorem getCpuAvgStats_err_of_missing (first : CpusRawStats) :
    ∀ second : CpusRawStats,
      (∀ p ∈ second, goStartsWith p.1 "cpu" = true) →
      (∃ p ∈ second, lookupA p.1 first = none) →
      ∃ e, getCpuAvgStats first second = Except.error e := by
  intro second
  induction second with
  | nil =>
    intro _ h
    obtain ⟨p, hp, _⟩ := h
    simp at hp
  | cons q rest ih =>
    obtain ⟨n, m⟩ := q
    intro hall hmiss
    have hcpu := hall (n, m) (List.mem_cons_self _ _)
    rw [getCpuAvgStats, if_pos hcpu]
    cases hx : lookupA n first with
    | none => exact ⟨_, rfl⟩
    | some m1 =>
      obtain ⟨p, hp, hpn⟩ := hmiss
      rcases List.mem_cons.mp hp with heq | hmem
      · subst heq; rw [hx] at hpn; cases hpn
      · obtain ⟨e, he⟩ := ih (fun q hq => hall q (List.mem_cons_of_mem _ hq)) ⟨p, hmem, hpn⟩
        rw [he]
        exact ⟨e, rfl⟩

theorem getNetAvgStats_ok_lookup (first : NetRawStats) :
    ∀ second : NetRawStats,
      (∀ p ∈ second, (lookupA p.1 first).isSome = true) →
      ∃ r, getNetAvgStats first second = Except.ok r ∧
        ∀ name m2 m1, lookupA name second = some m2 → lookupA name first = some m1 →
          lookupA name r = some (netAvgOne m1 m2) := by
  intro second
  induction second with
  | nil =>
    intro _
    exact ⟨[], rfl, fun name m2 m1 h _ => by simp [lookupA] at h⟩
  | cons p rest ih =>
    obtain ⟨n, m⟩ := p
    intro h
    have hsome := h (n, m) (List.mem_cons_self _ _)
    obtain ⟨m1x, hm1x⟩ : ∃ m1x, lookupA n first = some m1x := by
      cases hx : lookupA n first with
      | none => rw [hx] at hsome; simp [Option.isSome] at hsome
      | some v => exact ⟨v, rfl⟩
    obtain ⟨r', hr', hlook⟩ := ih fun q hq => h q (List.mem_cons_of_mem _ hq)
    refine ⟨(n, netAvgOne m1x m) :: r', ?_, ?_⟩
    · rw [getNetAvgStats, hm1x, hr']
    · intro name m2 m1 h2 h1
      rw [lookupA] at h2
      by_cases hn : n = name
      · subst hn
        rw [if_pos rfl] at h2
        injection h2 with h2
        subst h2
        rw [hm1x] at h1
        injection h1 with h1
        subst h1
        rw [lookupA, if_pos rfl]
      · rw [if_neg hn] at h2
        rw [lookupA, if_neg hn]
        exact hlook name m2 m1 h2 h1

theorem getNetAvgStats_err_of_missing (first : NetRawStats) :
    ∀ second : NetRawStats,
      (∃ p ∈ second, lookupA p.1 first = none) →
      ∃ e, getNetAvgStats first second = Except.error e := by
  intro second
  induction second with
  | nil =>
    intro h
    obtain ⟨p, hp, _⟩ := h
    simp at hp
  | cons q rest ih =>
    obtain ⟨n, m⟩ := q
    intro hmiss
    rw [getNetAvgStats]
    cases hx : lookupA n first with
    | none => exact ⟨_, rfl⟩
    | some m1 =>
      obtain ⟨p, hp, hpn⟩ := hmiss
      rcases List.mem_cons.mp hp with heq | hmem
      · subst heq; rw [hx] at hpn; cases hpn
      · obtain ⟨e, he⟩ := ih ⟨p, hmem, hpn⟩
        rw [he]
        exact ⟨e, rfl⟩

theorem getDiskAvgStats_ok_eq {f s : DiskRawStats}
    (hcond : ¬(f.Major ≠ s.Major ∨ f.Minor ≠ s.Minor ∨ f.Name ≠ s.Name)) :
    getDiskAvgStats f s = Except.ok (diskAvgRecord f s) := by
  rw [getDiskAvgStats, if_neg hcond]

theorem getDiskAvgStats_ok_name {f s : DiskRawStats} {d : DiskAvgStats}
    (h : getDiskAvgStats f s = Except.ok d) : d.Name = f.Name := by
  rw [getDiskAvgStats] at h
  split at h
  · cases h
  · injection h with h
    subst h
    rfl

theorem diskStatsPairing_names (secondArr : List DiskRawStats) :
    ∀ (firstArr : List DiskRawStats) (r : List DiskAvgStats),
      diskStatsPairing secondArr firstArr = Except.ok r →
      ∀ d ∈ r, ∃ fs ∈ firstArr, fs.Name = d.Name := by
  intro firstArr
  induction firstArr with
  | nil =>
    intro r h d hd
    rw [diskStatsPairing] at h
    injection h with h
    subst h
    simp at hd
  | cons f rest ih =>
    intro r h d hd
    rw [diskStatsPairing] at h
    split at h
    · obtain ⟨fs, hfs, hname⟩ := ih r h d hd
      exact ⟨fs, List.mem_cons_of_mem _ hfs, hname⟩
    · split at h
      · simp at h
      · rename_i s hfind d0 havg
        split at h
        · simp at h
        · rename_i r' hrest
          injection h with h
          subst h
          rcases List.mem_cons.mp hd with heq | hmem
          · subst heq
            exact ⟨f, List.mem_cons_self _ _, (getDiskAvgStats_ok_name havg).symm⟩
          · obtain ⟨fs, hfs, hname⟩ := ih r' hrest d hmem
            exact ⟨fs, List.mem_cons_of_mem _ hfs, hname⟩

theorem cpuAvgOne_def (m1 m2 : CpuRawStats) :
    cpuAvgOne m1 m2 =
      setA "total"
        ((fsub (some 100)
          (lookupD (cpuRates m1 ((usub (lookupD m2 "total" 0) (lookupD m1 "total" 0) : ℕ) : ℚ) m2)
            "idle" (some 0))).map round2)
        (cpuRates m1 ((usub (lookupD m2 "total" 0) (lookupD m1 "total" 0) : ℕ) : ℚ) m2) := rfl

/-! ## Claim theorems -/

/-- C1: for any pair of CPU raw samples for the same CPU name with
`second[total] > first[total]`, `getCpuAvgStats` computes every mode rate as
`(second[k] - first[k]) * 100 / (second[total] - first[total])` rounded to 2
decimals, and the aggregate `total` rate as `100` minus the already-rounded
idle rate, rounded again. -/
theorem cpu_rate_derivation_formula
    (name : String) (m1 m2 : CpuRawStats) (k : String) (t1 t2 v2 i2 : Nat)
    (hname : goStartsWith name "cpu" = true)
    (ht1 : lookupA "total" m1 = some t1)
    (ht2 : lookupA "total" m2 = some t2)
    (hts : t1 < t2) (htb : t2 < U64)
    (hk2 : lookupA k m2 = some v2)
    (hkt : k ≠ "total") (hkT : k ≠ "Total")
    (hkv : lookupD m1 k 0 ≤ v2) (hkb : v2 < U64)
    (hi2 : lookupA "idle" m2 = some i2)
    (hiv : lookupD m1 "idle" 0 ≤ i2) (hib : i2 < U64) :
    getCpuAvgStats [(name, m1)] [(name, m2)] = Except.ok [(name, cpuAvgOne m1 m2)] ∧
    lookupA k (cpuAvgOne m1 m2) =
      some (some (round2 ((((v2 - lookupD m1 k 0 : ℕ) : ℚ) * 100) / ((t2 - t1 : ℕ) : ℚ)))) ∧
    lookupA "total" (cpuAvgOne m1 m2) =
      some (some (round2 (100 -
        round2 ((((i2 - lookupD m1 "idle" 0 : ℕ) : ℚ) * 100) / ((t2 - t1 : ℕ) : ℚ))))) := by
  have hv2d : lookupD m2 "total" 0 = t2 := by simp [lookupD, ht2]
  have hv1d : lookupD m1 "total" 0 = t1 := by simp [lookupD, ht1]
  have husub : usub (lookupD m2 "total" 0) (lookupD m1 "total" 0) = t2 - t1 := by
    rw [hv2d, hv1d]; exact usub_eq_sub (le_of_lt hts) htb
  have htdne : ((t2 - t1 : ℕ) : ℚ) ≠ 0 := by
    have : 0 < t2 - t1 := by omega
    exact_mod_cast Nat.pos_iff_ne_zero.mp this
  refine ⟨?_, ?_, ?_⟩
  · simp [getCpuAvgStats, lookupA, hname]
  · rw [cpuAvgOne_def, lookupA_setA_ne hkt, husub,
      cpuRates_lookup m1 ((t2 - t1 : ℕ) : ℚ) m2 k v2 hk2 hkT,
      usub_eq_sub hkv hkb, fdiv_of_ne _ htdne]
    rfl
  · have hidle : lookupA "idle" (cpuRates m1 ((t2 - t1 : ℕ) : ℚ) m2) =
        some (some (round2 ((((i2 - lookupD m1 "idle" 0 : ℕ) : ℚ) * 100) / ((t2 - t1 : ℕ) : ℚ)))) := by
      rw [cpuRates_lookup m1 ((t2 - t1 : ℕ) : ℚ) m2 "idle" i2 hi2 (by decide),
        usub_eq_sub hiv hib, fdiv_of_ne _ htdne]
      rfl
    rw [cpuAvgOne_def, lookupA_setA_self, husub, lookupD, hidle]
    rfl

/-- First CPU raw sample of the spec scenario. -/
def cpuW1 : CpuRawStats := [("total", 1000), ("user", 100), ("nice", 0), ("system", 50), ("idle", 850)]

/-- Second CPU raw sample of the spec scenario, 150 ticks later. -/
def cpuW2 : CpuRawStats := [("total", 1150), ("user", 150), ("nice", 0), ("system", 100), ("idle", 900)]

/-- Witness for C1: the spec scenario (user 100 to 150, nice 0 to 0, system
50 to 100, idle 850 to 900, tick delta 150) yields user 33.33, system 33.33,
idle 33.33, nice 0 and total 66.67. -/
theorem cpu_rate_derivation_formula_witness :
    getCpuAvgStats [("cpu", cpuW1)] [("cpu", cpuW2)] = Except.ok [("cpu", cpuAvgOne cpuW1 cpuW2)] ∧
    lookupA "user" (cpuAvgOne cpuW1 cpuW2) = some (some (3333 / 100)) ∧
    lookupA "nice" (cpuAvgOne cpuW1 cpuW2) = some (some 0) ∧
    lookupA "system" (cpuAvgOne cpuW1 cpuW2) = some (some (3333 / 100)) ∧
    lookupA "idle" (cpuAvgOne cpuW1 cpuW2) = some (some (3333 / 100)) ∧
    lookupA "total" (cpuAvgOne cpuW1 cpuW2) = some (some (6667 / 100)) := by
  obtain ⟨hok, hu, ht⟩ := cpu_rate_derivation_formula "cpu" cpuW1 cpuW2 "user" 1000 1150 150 900
    (by decide) (by decide) (by decide) (by decide) (by decide) (by decide) (by decide) (by decide)
    (by decide) (by decide) (by decide) (by decide) (by decide)
  obtain ⟨_, hn, _⟩ := cpu_rate_derivation_formula "cpu" cpuW1 cpuW2 "nice" 1000 1150 0 900
    (by decide) (by decide) (by decide) (by decide) (by decide) (by decide) (by decide) (by decide)
    (by decide) (by decide) (by decide) (by decide) (by decide)
  obtain ⟨_, hs, _⟩ := cpu_rate_derivation_formula "cpu" cpuW1 cpuW2 "system" 1000 1150 100 900
    (by decide) (by decide) (by decide) (by decide) (by decide) (by decide) (by decide) (by decide)
    (by decide) (by decide) (by decide) (by decide) (by decide)
  obtain ⟨_, hi, _⟩ := cpu_rate_derivation_formula "cpu" cpuW1 cpuW2 "idle" 1000 1150 900 900
    (by decide) (by decide) (by decide) (by decide) (by decide) (by decide) (by decide) (by decide)
    (by decide) (by decide) (by decide) (by decide) (by decide)
  have hlu : lookupD cpuW1 "user" 0 = 100 := by decide
  have hln : lookupD cpuW1 "nice" 0 = 0 := by decide
  have hls : lookupD cpuW1 "system" 0 = 50 := by decide
  have hli : lookupD cpuW1 "idle" 0 = 850 := by decide
  refine ⟨hok, ?_, ?_, ?_, ?_, ?_⟩
  · rw [hu, hlu]
    norm_num [round2]
  · rw [hn, hln]
    norm_num [round2]
  · rw [hs, hls]
    norm_num [round2]
  · rw [hi, hli]
    norm_num [round2]
  · rw [ht, hli]
    norm_num [round2]

theorem lookupA_isSome_of_mem {α : Type} {p : String × α} :
    ∀ {m : SMap α}, p ∈ m → (lookupA p.1 m).isSome = true := by
  intro m
  induction m with
  | nil => intro h; simp at h
  | cons q rest ih =>
    intro h
    obtain ⟨k2, v⟩ := q
    rw [lookupA]
    by_cases hk : k2 = p.1
    · rw [if_pos hk]; rfl
    · rw [if_neg hk]
      rcases List.mem_cons.mp h with heq | hmem
      · subst heq; simp at hk
      · exact ih hmem

theorem netAvgOne_def (m1 m2 : IfaceRawStats) :
    netAvgOne m1 m2 =
      netRates m1 ((usub (lookupD m2 "time" 0) (lookupD m1 "time" 0) : ℕ) : ℚ) m2 := rfl

/-- Sample interface map used as concrete input: counters at capture time
100. -/
def netW1 : IfaceRawStats := [("time", 100), ("rxbytes", 0), ("txbytes", 5)]

/-- Sample process raw sample used as concrete input. -/
def procW : ProcRawStats :=
  { Running := 1, Blocked := 2, RunQueue := 3, Total := 4, Processes := 100, Time := 50 }

/-- C2 (amended): deriving rates from the pair (S, S) yields a non-finite
value (NaN, from the 0/0 of a zero tick or time delta) for every counter
field of the CPU and network domains, not zero; only the process domain's
elapsed-at-most-0 guard yields an actual 0 for its new-processes rate. -/
theorem self_derivation_rates :
    (∀ S : CpusRawStats, (∀ p ∈ S, goStartsWith p.1 "cpu" = true) →
      ∃ r, getCpuAvgStats S S = Except.ok r ∧
        ∀ name m, lookupA name S = some m →
          lookupA name r = some (cpuAvgOne m m) ∧
          ∀ k v, lookupA k m = some v → k ≠ "Total" → k ≠ "total" →
            lookupA k (cpuAvgOne m m) = some none) ∧
    (∀ S : NetRawStats,
      ∃ r, getNetAvgStats S S = Except.ok r ∧
        ∀ name m, lookupA name S = some m →
          lookupA name r = some (netAvgOne m m) ∧
          ∀ k v, lookupA k m = some v → k ≠ "time" →
            lookupA k (netAvgOne m m) = some none) ∧
    (∀ P : ProcRawStats, (getProcAvgStats P P).NewProcs = 0) := by
  refine ⟨?_, ?_, ?_⟩
  · intro S h
    obtain ⟨r, hok, hlook⟩ := getCpuAvgStats_ok_lookup S S
      (fun p hp => ⟨h p hp, lookupA_isSome_of_mem hp⟩)
    refine ⟨r, hok, ?_⟩
    intro name m hm
    refine ⟨hlook name m m hm hm, ?_⟩
    intro k v hk hT ht
    rw [cpuAvgOne_def, lookupA_setA_ne ht, usub_self,
      cpuRates_lookup m ((0 : ℕ) : ℚ) m k v hk hT]
    simp [fdiv]
  · intro S
    obtain ⟨r, hok, hlook⟩ := getNetAvgStats_ok_lookup S S
      (fun p hp => lookupA_isSome_of_mem hp)
    refine ⟨r, hok, ?_⟩
    intro name m hm
    refine ⟨hlook name m m hm hm, ?_⟩
    intro k v hk ht
    rw [netAvgOne_def, usub_self, netRates_lookup m ((0 : ℕ) : ℚ) m k v hk ht]
    simp [fdiv]
  · intro P
    simp [getProcAvgStats]

/-- Counterexample for C2: deriving the scenario CPU snapshot against itself
yields the non-finite value `none` (NaN) for the `user` counter field, not
the zero rate the claim asserts. -/
theorem self_derivation_zero_cex :
    getCpuAvgStats [("cpu", cpuW1)] [("cpu", cpuW1)] =
      Except.ok [("cpu", [("total", none), ("user", none), ("nice", none),
        ("system", none), ("idle", none)])] ∧
    lookupA "user" (cpuAvgOne cpuW1 cpuW1) = some none ∧
    lookupA "user" (cpuAvgOne cpuW1 cpuW1) ≠ some (some 0) := by
  refine ⟨by decide, by decide, by decide⟩

/-- Witness for C2 (amended): concrete self-derivations showing a NaN CPU
user rate, a NaN network rxbytes rate, and a process NewProcs of 0. -/
theorem self_derivation_rates_witness :
    lookupA "user" (cpuAvgOne cpuW1 cpuW1) = some none ∧
    lookupA "rxbytes" (netAvgOne netW1 netW1) = some none ∧
    (getProcAvgStats procW procW).NewProcs = 0 := by
  obtain ⟨hcpu, hnet, hproc⟩ := self_derivation_rates
  refine ⟨?_, ?_, hproc procW⟩
  · obtain ⟨r, hok, hlook⟩ := hcpu [("cpu", cpuW1)] (by decide)
    obtain ⟨h1, h2⟩ := hlook "cpu" cpuW1 (by decide)
    exact h2 "user" 100 (by decide) (by decide) (by decide)
  · obtain ⟨r, hok, hlook⟩ := hnet [("eth0", netW1)]
    obtain ⟨h1, h2⟩ := hlook "eth0" netW1 (by decide)
    exact h2 "rxbytes" 0 (by decide) (by decide)

/-- Disk raw sample `sda` at capture time 100, with all counters zero. -/
def diskA : DiskRawStats :=
  { Major := 8, Minor := 0, Name := "sda", ReadIOs := 0, ReadMerges := 0, ReadSectors := 0,
    ReadTicks := 0, WriteIOs := 0, WriteMerges := 0, WriteSectors := 0, WriteTicks := 0,
    InFlight := 0, IOTicks := 0, TimeInQueue := 0, SampleTime := 100 }

/-- Disk raw sample `sdb` at capture time 100, as a device present only in
the second snapshot. -/
def diskB : DiskRawStats :=
  { Major := 8, Minor := 16, Name := "sdb", ReadIOs := 3, ReadMerges := 0, ReadSectors := 9,
    ReadTicks := 0, WriteIOs := 0, WriteMerges := 0, WriteSectors := 0, WriteTicks := 0,
    InFlight := 0, IOTicks := 0, TimeInQueue := 0, SampleTime := 100 }

/-- Extracts the derived sample of a successful `getDiskAvgStats` call. -/
def diskAvgOf (f s : DiskRawStats) : DiskAvgStats :=
  match getDiskAvgStats f s with
  | Except.ok d => d
  | Except.error _ =>
    { Major := 0, Minor := 0, Name := "", ReadIOs := none, ReadMerges := none, ReadBytes := none,
      WriteIOs := none, WriteMerges := none, WriteBytes := none, InFlight := 0, IOTicks := 0,
      TimeInQueue := 0 }

/-- Derived sample for the pair (diskA, diskA). -/
def diskSelfAvg : DiskAvgStats := diskAvgOf diskA diskA

/-- C3 (amended): in the CPU and network domains an entity key present in
the second snapshot but absent from the first makes the derivation call fail
(the CPU loop rejects non-`cpu` names before the lookup, so all names are
assumed cpu-prefixed); in the disk domain, the interval pairing loop walks
the first snapshot only, so every derived entry stems from a first-snapshot
device and second-only devices are silently dropped rather than failing. -/
theorem missing_entity_behavior :
    (∀ first second : CpusRawStats,
      (∀ p ∈ second, goStartsWith p.1 "cpu" = true) →
      (∃ p ∈ second, lookupA p.1 first = none) →
      ∃ e, getCpuAvgStats first second = Except.error e) ∧
    (∀ first second : NetRawStats,
      (∃ p ∈ second, lookupA p.1 first = none) →
      ∃ e, getNetAvgStats first second = Except.error e) ∧
    (∀ (firstArr secondArr : List DiskRawStats) (r : List DiskAvgStats),
      diskStatsPairing secondArr firstArr = Except.ok r →
      ∀ d ∈ r, ∃ fs ∈ firstArr, fs.Name = d.Name) :=
  ⟨fun f s ha hm => getCpuAvgStats_err_of_missing f s ha hm,
   fun f s hm => getNetAvgStats_err_of_missing f s hm,
   fun fa sa r h => diskStatsPairing_names sa fa r h⟩

/-- Counterexample for C3: a second disk snapshot containing the
hot-plugged device `sdb`, absent from the first snapshot, does not make the
disk derivation fail — the call succeeds and `sdb` is silently dropped from
the result. -/
theorem disk_second_only_entity_cex :
    diskStatsPairing [diskA, diskB] [diskA] = Except.ok [diskSelfAvg] ∧
    diskB.Name = "sdb" ∧ diskA.Name = "sda" ∧ diskSelfAvg.Name = "sda" := by
  refine ⟨by decide, rfl, rfl, by decide⟩

/-- Witness for C3 (amended): a second-only `cpu` key and a second-only
`eth0` key make the CPU and network derivations fail; for the disk pairing,
the derived entry traces back to the first snapshot device `sda`. -/
theorem missing_entity_behavior_witness :
    exceptOk (getCpuAvgStats [] [("cpu", cpuW1)]) = false ∧
    exceptOk (getNetAvgStats [] [("eth0", netW1)]) = false ∧
    diskA.Name = diskSelfAvg.Name := by
  obtain ⟨hc, hn, hd⟩ := missing_entity_behavior
  refine ⟨?_, ?_, ?_⟩
  · obtain ⟨e, he⟩ := hc [] [("cpu", cpuW1)] (by decide) (by decide)
    rw [he]
    rfl
  · obtain ⟨e, he⟩ := hn [] [("eth0", netW1)] (by decide)
    rw [he]
    rfl
  · obtain ⟨fs, hfs, hname⟩ := hd [diskA] [diskA, diskB] [diskSelfAvg] (by decide)
      diskSelfAvg (by decide)
    rcases List.mem_cons.mp hfs with heq | hmem
    · exact heq ▸ hname
    · simp at hmem

theorem parseCpuFields_ok :
    ∀ (fs : List String) (i : Nat) (m : CpuRawStats),
      exceptOk (parseCpuFields fs i m) = true ↔ ∀ f ∈ fs, (parseUint64 f).isSome = true := by
  intro fs
  induction fs with
  | nil => intro i m; simp [parseCpuFields, exceptOk]
  | cons f rest ih =>
    intro i m
    rw [parseCpuFields]
    cases h : parseUint64 f with
    | none => simp [exceptOk, h]
    | some v => simp [h, ih]

theorem parseIfaceFields_ok :
    ∀ (fs : List String) (i : Nat) (m : IfaceRawStats),
      exceptOk (parseIfaceFields fs i m) = true ↔ ∀ f ∈ fs, (parseUint64 f).isSome = true := by
  intro fs
  induction fs with
  | nil => intro i m; simp [parseIfaceFields, exceptOk]
  | cons f rest ih =>
    intro i m
    rw [parseIfaceFields]
    cases h : parseUint64 f with
    | none => simp [exceptOk, h]
    | some v => simp [h, ih]

/-- C4 (amended): only the disk record parser checks the field count — it
fails exactly when the record does not have 14 whitespace-separated fields,
and silently ignores numeric parse failures; the CPU and network record
parsers never check the field count and fail exactly when some numeric field
after the name fails to parse as an unsigned 64-bit integer. -/
theorem record_parse_failure_conditions :
    (∀ s : String, exceptOk (parseDiskRawStats s) = true ↔ (goFields s).length = 14) ∧
    (∀ (s f0 : String) (fs : List String), goFields s = f0 :: fs →
      (exceptOk (parseCpuRawStats s) = true ↔ ∀ f ∈ fs, (parseUint64 f).isSome = true)) ∧
    (∀ (s f0 : String) (fs : List String), goFields s = f0 :: fs →
      (exceptOk (parseIfaceRawStats s) = true ↔ ∀ f ∈ fs, (parseUint64 f).isSome = true)) := by
  refine ⟨?_, ?_, ?_⟩
  · intro s
    rw [parseDiskRawStats]
    by_cases h : (goFields s).length = 14
    · simp [h, exceptOk]
    · simp [h, exceptOk]
  · intro s f0 fs h
    have heq : exceptOk (parseCpuRawStats s) = exceptOk (parseCpuFields fs 1 []) := by
      rw [parseCpuRawStats, h]
      cases hp : parseCpuFields fs 1 [] <;> simp [hp, exceptOk]
    rw [heq]
    exact parseCpuFields_ok fs 1 []
  · intro s f0 fs h
    have heq : exceptOk (parseIfaceRawStats s) = exceptOk (parseIfaceFields fs 1 []) := by
      rw [parseIfaceRawStats, h]
      cases hp : parseIfaceFields fs 1 [] <;> simp [hp, exceptOk]
    rw [heq]
    exact parseIfaceFields_ok fs 1 []

/-- Extracts the raw sample of a successful CPU record parse. -/
def cpuParsed (r : Except String (String × CpuRawStats)) : CpuRawStats :=
  match r with
  | Except.ok p => p.2
  | Except.error _ => []

/-- Disk record with 14 fields whose fourth field is not numeric. -/
def diskBadRecord : String := "8 0 sda abc 0 0 0 0 0 0 0 0 0 0"

/-- Extracts the sample of a successful disk record parse. -/
def diskParsed (r : Except String DiskRawStats) : DiskRawStats :=
  match r with
  | Except.ok d => d
  | Except.error _ => diskB

/-- Counterexample for C4: a CPU record with only 2 numeric fields (not 10)
parses successfully, and a 14-field disk record with the non-numeric field
`abc` in the read-IOs position also parses successfully (the field is left
0), while the claim requires both parses to fail. -/
theorem parse_count_mismatch_cex :
    exceptOk (parseCpuRawStats "cpu 1 2") = true ∧
    (goFields "cpu 1 2").length = 3 ∧
    exceptOk (parseDiskRawStats diskBadRecord) = true ∧
    parseUint64 "abc" = none ∧
    (diskParsed (parseDiskRawStats diskBadRecord)).ReadIOs = 0 := by
  refine ⟨by decide, by decide, by decide, by decide, by decide⟩

/-- Witness for C4 (amended): a 14-field disk record parses, a CPU record
with a non-numeric field fails, and a short network record parses. -/
theorem record_parse_failure_conditions_witness :
    exceptOk (parseDiskRawStats "8 0 sda 1 2 3 4 5 6 7 8 9 10 11") = true ∧
    exceptOk (parseCpuRawStats "cpu 1 x") = false ∧
    exceptOk (parseIfaceRawStats "eth0: 10 20") = true := by
  obtain ⟨hdisk, hcpu, hnet⟩ := record_parse_failure_conditions
  refine ⟨?_, ?_, ?_⟩
  · exact (hdisk "8 0 sda 1 2 3 4 5 6 7 8 9 10 11").mpr (by decide)
  · have hiff := hcpu "cpu 1 x" "cpu" ["1", "x"] (by decide)
    have hnot : ¬ exceptOk (parseCpuRawStats "cpu 1 x") = true := by
      intro hh
      have := (hiff.mp hh) "x" (by decide)
      simp [parseUint64, parseDigits] at this
    cases hval : exceptOk (parseCpuRawStats "cpu 1 x") with
    | false => rfl
    | true => exact absurd hval hnot
  · exact (hnet "eth0: 10 20" "eth0:" ["10", "20"] (by decide)).mpr (by decide)

/-- C5 (amended): for a CPU record in the /proc/stat layout — a name
followed by exactly 10 numeric fields whose sum stays below `2 ^ 64` — the
parser returns a raw sample whose synthetic `total` equals the sum of the
ten per-mode counters parsed from that same record. A record with more than
10 numeric fields adds the extra values into `total` without storing them
under any mode, so the equality fails there (see the counterexample). -/
theorem cpu_total_sum_of_modes
    (s name f1 f2 f3 f4 f5 f6 f7 f8 f9 f10 : String)
    (v1 v2 v3 v4 v5 v6 v7 v8 v9 v10 : Nat)
    (hf : goFields s = [name, f1, f2, f3, f4, f5, f6, f7, f8, f9, f10])
    (h1 : parseUint64 f1 = some v1) (h2 : parseUint64 f2 = some v2)
    (h3 : parseUint64 f3 = some v3) (h4 : parseUint64 f4 = some v4)
    (h5 : parseUint64 f5 = some v5) (h6 : parseUint64 f6 = some v6)
    (h7 : parseUint64 f7 = some v7) (h8 : parseUint64 f8 = some v8)
    (h9 : parseUint64 f9 = some v9) (h10 : parseUint64 f10 = some v10)
    (hsum : v1 + v2 + v3 + v4 + v5 + v6 + v7 + v8 + v9 + v10 < U64) :
    exceptOk (parseCpuRawStats s) = true ∧
    lookupA "total" (cpuParsed (parseCpuRawStats s)) =
      some (v1 + v2 + v3 + v4 + v5 + v6 + v7 + v8 + v9 + v10) ∧
    lookupA "user" (cpuParsed (parseCpuRawStats s)) = some v1 ∧
    lookupA "nice" (cpuParsed (parseCpuRawStats s)) = some v2 ∧
    lookupA "system" (cpuParsed (parseCpuRawStats s)) = some v3 ∧
    lookupA "idle" (cpuParsed (parseCpuRawStats s)) = some v4 ∧
    lookupA "iowait" (cpuParsed (parseCpuRawStats s)) = some v5 ∧
    lookupA "irq" (cpuParsed (parseCpuRawStats s)) = some v6 ∧
    lookupA "softirq" (cpuParsed (parseCpuRawStats s)) = some v7 ∧
    lookupA "steal" (cpuParsed (parseCpuRawStats s)) = some v8 ∧
    lookupA "guest" (cpuParsed (parseCpuRawStats s)) = some v9 ∧
    lookupA "guestnice" (cpuParsed (parseCpuRawStats s)) = some v10 := by
  rw [U64] at hsum
  refine ⟨?_, ?_, ?_, ?_, ?_, ?_, ?_, ?_, ?_, ?_, ?_, ?_⟩ <;>
    simp [parseCpuRawStats, hf, parseCpuFields, h1, h2, h3, h4, h5, h6, h7, h8, h9, h10,
      cpuParsed, cpuKeyOf, setA, lookupD, lookupA, exceptOk, U64]
  omega

/-- A parsed CPU record with 11 numeric fields. -/
def c5raw : CpuRawStats := cpuParsed (parseCpuRawStats "cpu 1 1 1 1 1 1 1 1 1 1 1")

/-- Counterexample for C5: a CPU record with 11 numeric fields, all of which
parse as unsigned integers, yields a synthetic `total` of 11 while the ten
per-mode counters sum to 10 — the eleventh value is folded into `total` but
stored under no mode. -/
theorem cpu_total_extra_fields_cex :
    exceptOk (parseCpuRawStats "cpu 1 1 1 1 1 1 1 1 1 1 1") = true ∧
    lookupA "total" c5raw = some 11 ∧
    lookupD c5raw "user" 0 + lookupD c5raw "nice" 0 + lookupD c5raw "system" 0 +
      lookupD c5raw "idle" 0 + lookupD c5raw "iowait" 0 + lookupD c5raw "irq" 0 +
      lookupD c5raw "softirq" 0 + lookupD c5raw "steal" 0 + lookupD c5raw "guest" 0 +
      lookupD c5raw "guestnice" 0 = 10 := by
  refine ⟨by decide, by decide, by decide⟩

/-- Witness for C5 (amended): the record `cpu 10 20 ... 100` parses with
synthetic total 550, the sum of its ten mode counters. -/
theorem cpu_total_sum_of_modes_witness :
    exceptOk (parseCpuRawStats "cpu 10 20 30 40 50 60 70 80 90 100") = true ∧
    lookupA "total" (cpuParsed (parseCpuRawStats "cpu 10 20 30 40 50 60 70 80 90 100")) =
      some 550 ∧
    lookupA "user" (cpuParsed (parseCpuRawStats "cpu 10 20 30 40 50 60 70 80 90 100")) =
      some 10 := by
  obtain ⟨hok, htot, huser, _⟩ := cpu_total_sum_of_modes
    "cpu 10 20 30 40 50 60 70 80 90 100" "cpu" "10" "20" "30" "40" "50" "60" "70" "80" "90" "100"
    10 20 30 40 50 60 70 80 90 100 (by decide) (by decide) (by decide) (by decide) (by decide)
    (by decide) (by decide) (by decide) (by decide) (by decide) (by decide) (by decide)
  refine ⟨hok, ?_, huser⟩
  rw [htot]

/-- C6: for disk samples agreeing on (major, minor, name) over a positive
stamped-time delta, read/write rates are sector deltas converted to bytes
(times 512) divided by the elapsed seconds, `InFlight` is copied from the
second sample undivided, and `TimeInQueue` is the raw counter difference,
not divided by elapsed time. -/
theorem disk_rate_derivation_formula (f s : DiskRawStats)
    (hM : f.Major = s.Major) (hm : f.Minor = s.Minor) (hn : f.Name = s.Name)
    (ht : f.SampleTime < s.SampleTime)
    (hr : f.ReadSectors ≤ s.ReadSectors) (hrb : s.ReadSectors * 512 < U64)
    (hw : f.WriteSectors ≤ s.WriteSectors) (hwb : s.WriteSectors * 512 < U64)
    (hq : f.TimeInQueue ≤ s.TimeInQueue) (hqb : s.TimeInQueue < U64) :
    ∃ r, getDiskAvgStats f s = Except.ok r ∧
      r.ReadBytes = some (((s.ReadSectors * 512 - f.ReadSectors * 512 : ℕ) : ℚ) /
        ((s.SampleTime - f.SampleTime : ℤ) : ℚ)) ∧
      r.WriteBytes = some (((s.WriteSectors * 512 - f.WriteSectors * 512 : ℕ) : ℚ) /
        ((s.SampleTime - f.SampleTime : ℤ) : ℚ)) ∧
      r.InFlight = s.InFlight ∧
      r.TimeInQueue = s.TimeInQueue - f.TimeInQueue := by
  have hcond : ¬(f.Major ≠ s.Major ∨ f.Minor ≠ s.Minor ∨ f.Name ≠ s.Name) := by
    simp [hM, hm, hn]
  have htdne : ((s.SampleTime - f.SampleTime : ℤ) : ℚ) ≠ 0 := by
    have hz : (s.SampleTime - f.SampleTime : ℤ) ≠ 0 := by omega
    exact_mod_cast hz
  have hfr : f.ReadSectors * 512 ≤ s.ReadSectors * 512 := Nat.mul_le_mul_right 512 hr
  have hfw : f.WriteSectors * 512 ≤ s.WriteSectors * 512 := Nat.mul_le_mul_right 512 hw
  refine ⟨diskAvgRecord f s, getDiskAvgStats_ok_eq hcond, ?_, ?_, rfl, ?_⟩
  · show fdiv ((usub (s.ReadSectors * 512 % U64) (f.ReadSectors * 512 % U64) : ℕ) : ℚ)
      ((s.SampleTime - f.SampleTime : ℤ) : ℚ) = _
    rw [Nat.mod_eq_of_lt hrb, Nat.mod_eq_of_lt (lt_of_le_of_lt hfr hrb),
      usub_eq_sub hfr hrb, fdiv_of_ne _ htdne]
  · show fdiv ((usub (s.WriteSectors * 512 % U64) (f.WriteSectors * 512 % U64) : ℕ) : ℚ)
      ((s.SampleTime - f.SampleTime : ℤ) : ℚ) = _
    rw [Nat.mod_eq_of_lt hwb, Nat.mod_eq_of_lt (lt_of_le_of_lt hfw hwb),
      usub_eq_sub hfw hwb, fdiv_of_ne _ htdne]
  · show usub s.TimeInQueue f.TimeInQueue = _
    rw [usub_eq_sub hq hqb]

/-- First disk sample of the spec scenario: 1000 read sectors at time 100. -/
def diskW1 : DiskRawStats :=
  { Major := 8, Minor := 0, Name := "sda", ReadIOs := 0, ReadMerges := 0, ReadSectors := 1000,
    ReadTicks := 0, WriteIOs := 0, WriteMerges := 0, WriteSectors := 0, WriteTicks := 0,
    InFlight := 0, IOTicks := 0, TimeInQueue := 5, SampleTime := 100 }

/-- Second disk sample of the spec scenario: 2000 read sectors 2 seconds
later. -/
def diskW2 : DiskRawStats :=
  { Major := 8, Minor := 0, Name := "sda", ReadIOs := 0, ReadMerges := 0, ReadSectors := 2000,
    ReadTicks := 0, WriteIOs := 0, WriteMerges := 0, WriteSectors := 0, WriteTicks := 0,
    InFlight := 3, IOTicks := 0, TimeInQueue := 12, SampleTime := 102 }

/-- Witness for C6: read sectors 1000 to 2000 over 2 elapsed seconds yield
ReadBytes = (2000*512 - 1000*512)/2 = 256000; InFlight is the second
sample's 3 and TimeInQueue the raw delta 7. -/
theorem disk_rate_derivation_formula_witness :
    getDiskAvgStats diskW1 diskW2 = Except.ok (diskAvgOf diskW1 diskW2) ∧
    (diskAvgOf diskW1 diskW2).ReadBytes = some 256000 ∧
    (diskAvgOf diskW1 diskW2).WriteBytes = some 0 ∧
    (diskAvgOf diskW1 diskW2).InFlight = 3 ∧
    (diskAvgOf diskW1 diskW2).TimeInQueue = 7 := by
  obtain ⟨r, hok, hrb, hwb, hif, htq⟩ := disk_rate_derivation_formula diskW1 diskW2
    rfl rfl rfl (by decide) (by decide) (by decide) (by decide) (by decide) (by decide)
    (by decide)
  have hres : diskAvgOf diskW1 diskW2 = r := by simp only [diskAvgOf, hok]
  refine ⟨by rw [hres]; exact hok, ?_, ?_, ?_, ?_⟩
  · rw [hres, hrb]
    norm_num [diskW1, diskW2]
  · rw [hres, hwb]
    norm_num [diskW1, diskW2]
  · rw [hres, hif]
    decide
  · rw [hres, htq]
    decide

/-- C7: `getDiskAvgStats` fails exactly when the two samples disagree on the
(major, minor, name) identity triple; when they agree the call succeeds and
the shared identity is carried through unchanged. -/
theorem disk_identity_mismatch_iff (f s : DiskRawStats) :
    ((∃ e, getDiskAvgStats f s = Except.error e) ↔
      ¬(f.Major = s.Major ∧ f.Minor = s.Minor ∧ f.Name = s.Name)) ∧
    ((f.Major = s.Major ∧ f.Minor = s.Minor ∧ f.Name = s.Name) →
      ∃ r, getDiskAvgStats f s = Except.ok r ∧
        r.Major = f.Major ∧ r.Minor = f.Minor ∧ r.Name = f.Name) := by
  by_cases hc : f.Major = s.Major ∧ f.Minor = s.Minor ∧ f.Name = s.Name
  · have hcond : ¬(f.Major ≠ s.Major ∨ f.Minor ≠ s.Minor ∨ f.Name ≠ s.Name) := by
      simp [hc.1, hc.2.1, hc.2.2]
    have hok : getDiskAvgStats f s = Except.ok (diskAvgRecord f s) :=
      getDiskAvgStats_ok_eq hcond
    refine ⟨⟨?_, ?_⟩, ?_⟩
    · rintro ⟨e, he⟩
      rw [hok] at he
      cases he
    · intro hcontra
      exact absurd hc hcontra
    · intro _
      exact ⟨_, hok, rfl, rfl, rfl⟩
  · have hcond : f.Major ≠ s.Major ∨ f.Minor ≠ s.Minor ∨ f.Name ≠ s.Name := by tauto
    have herr : getDiskAvgStats f s = Except.error "The samples are from different disks" := by
      simp only [getDiskAvgStats]
      rw [if_pos hcond]
    refine ⟨⟨?_, ?_⟩, ?_⟩
    · intro _
      exact hc
    · intro _
      exact ⟨_, herr⟩
    · intro hcc
      exact absurd hcc hc

/-- Witness for C7: samples with differing names fail, and the matching
scenario pair succeeds with the identity carried through. -/
theorem disk_identity_mismatch_iff_witness :
    exceptOk (getDiskAvgStats diskA diskB) = false ∧
    getDiskAvgStats diskW1 diskW2 = Except.ok (diskAvgOf diskW1 diskW2) ∧
    (diskAvgOf diskW1 diskW2).Major = 8 ∧
    (diskAvgOf diskW1 diskW2).Minor = 0 ∧
    (diskAvgOf diskW1 diskW2).Name = "sda" := by
  obtain ⟨hiff1, _⟩ := disk_identity_mismatch_iff diskA diskB
  obtain ⟨_, himp2⟩ := disk_identity_mismatch_iff diskW1 diskW2
  obtain ⟨e, he⟩ := hiff1.mpr (by decide)
  obtain ⟨r, hok, hMa, hMi, hNa⟩ := himp2 ⟨rfl, rfl, rfl⟩
  have hres : diskAvgOf diskW1 diskW2 = r := by simp only [diskAvgOf, hok]
  refine ⟨by rw [he]; rfl, by rw [hres]; exact hok, ?_, ?_, ?_⟩
  · rw [hres, hMa]
    decide
  · rw [hres, hMi]
    decide
  · rw [hres, hNa]
    decide

/-- C8: for network snapshots whose interface keys all match, each counter
field's rate is the uint64 field delta divided by the delta of the two
stamped `time` fields (wall-clock seconds taken from the snapshots), with no
rounding. -/
theorem net_rate_derivation_formula
    (first second : NetRawStats) (name : String) (m1 m2 : IfaceRawStats)
    (k : String) (t1 t2 v2 : Nat)
    (hall : ∀ p ∈ second, (lookupA p.1 first).isSome = true)
    (h1 : lookupA name first = some m1) (h2 : lookupA name second = some m2)
    (ht1 : lookupA "time" m1 = some t1) (ht2 : lookupA "time" m2 = some t2)
    (hts : t1 < t2) (htb : t2 < U64)
    (hk : lookupA k m2 = some v2) (hkt : k ≠ "time")
    (hkv : lookupD m1 k 0 ≤ v2) (hkb : v2 < U64) :
    ∃ r, getNetAvgStats first second = Except.ok r ∧
      lookupA name r = some (netAvgOne m1 m2) ∧
      lookupA k (netAvgOne m1 m2) =
        some (some (((v2 - lookupD m1 k 0 : ℕ) : ℚ) / ((t2 - t1 : ℕ) : ℚ))) := by
  obtain ⟨r, hok, hlook⟩ := getNetAvgStats_ok_lookup first second hall
  refine ⟨r, hok, hlook name m2 m1 h2 h1, ?_⟩
  have hv2d : lookupD m2 "time" 0 = t2 := by simp [lookupD, ht2]
  have hv1d : lookupD m1 "time" 0 = t1 := by simp [lookupD, ht1]
  have htdne : ((t2 - t1 : ℕ) : ℚ) ≠ 0 := by
    have h0 : 0 < t2 - t1 := by omega
    exact_mod_cast Nat.pos_iff_ne_zero.mp h0
  rw [netAvgOne_def, hv2d, hv1d, usub_eq_sub (le_of_lt hts) htb,
    netRates_lookup m1 ((t2 - t1 : ℕ) : ℚ) m2 k v2 hk hkt,
    usub_eq_sub hkv hkb, fdiv_of_ne _ htdne]

/-- Interface sample for the C8 witness: rxbytes 0 at time 100. -/
def netW8a : IfaceRawStats := [("time", 100), ("rxbytes", 0)]

/-- Interface sample for the C8 witness: rxbytes 1000 at time 110. -/
def netW8b : IfaceRawStats := [("time", 110), ("rxbytes", 1000)]

/-- Witness for C8: rxbytes increasing by 1000 over 10 stamped seconds
yields exactly 100. -/
theorem net_rate_derivation_formula_witness :
    exceptOk (getNetAvgStats [("eth0", netW8a)] [("eth0", netW8b)]) = true ∧
    lookupA "rxbytes" (netAvgOne netW8a netW8b) = some (some 100) := by
  obtain ⟨r, hok, hname, hrate⟩ := net_rate_derivation_formula
    [("eth0", netW8a)] [("eth0", netW8b)] "eth0" netW8a netW8b "rxbytes" 100 110 1000
    (by decide) (by decide) (by decide) (by decide) (by decide) (by decide) (by decide)
    (by decide) (by decide) (by decide) (by decide)
  have hl : lookupD netW8a "rxbytes" 0 = 0 := by decide
  refine ⟨by rw [hok]; rfl, ?_⟩
  rw [hrate, hl]
  norm_num

/-- C9: `getProcAvgStats` computes NewProcs as the fork-counter delta over
the time delta when the latter is strictly positive and 0 when it is zero or
negative; the Running, Blocked, RunQueue and Total gauges are copied
unchanged from the second sample. -/
theorem proc_avg_stats_spec (f s : ProcRawStats) :
    (f.Time < s.Time → f.Processes ≤ s.Processes → s.Processes < U64 →
      (getProcAvgStats f s).NewProcs =
        ((s.Processes - f.Processes : ℕ) : ℚ) / ((s.Time - f.Time : ℤ) : ℚ)) ∧
    (s.Time ≤ f.Time → (getProcAvgStats f s).NewProcs = 0) ∧
    (getProcAvgStats f s).Running = s.Running ∧
    (getProcAvgStats f s).Blocked = s.Blocked ∧
    (getProcAvgStats f s).RunQueue = s.RunQueue ∧
    (getProcAvgStats f s).Total = s.Total := by
  refine ⟨?_, ?_, rfl, rfl, rfl, rfl⟩
  · intro ht hp hb
    have hpos : ((s.Time - f.Time : ℤ) : ℚ) > 0 := by
      have hz : (0 : ℤ) < s.Time - f.Time := by omega
      exact_mod_cast hz
    simp only [getProcAvgStats]
    rw [if_pos hpos, usub_eq_sub hp hb]
  · intro ht
    have hnpos : ¬((s.Time - f.Time : ℤ) : ℚ) > 0 := by
      have hz : s.Time - f.Time ≤ (0 : ℤ) := by omega
      exact not_lt.mpr (by exact_mod_cast hz)
    simp only [getProcAvgStats]
    rw [if_neg hnpos]

/-- Second process sample for the C9 witness: 50 more forks 10 seconds
later. -/
def procW2 : ProcRawStats :=
  { Running := 5, Blocked := 6, RunQueue := 7, Total := 8, Processes := 150, Time := 60 }

/-- Witness for C9: 50 forks over 10 seconds give NewProcs 5; the reversed
pair has a negative delta and gives 0; the gauges come from the second
sample. -/
theorem proc_avg_stats_spec_witness :
    (getProcAvgStats procW procW2).NewProcs = 5 ∧
    (getProcAvgStats procW2 procW).NewProcs = 0 ∧
    (getProcAvgStats procW procW2).Running = 5 ∧
    (getProcAvgStats procW procW2).Blocked = 6 ∧
    (getProcAvgStats procW procW2).RunQueue = 7 ∧
    (getProcAvgStats procW procW2).Total = 8 := by
  obtain ⟨h1, _, h3, h4, h5, h6⟩ := proc_avg_stats_spec procW procW2
  obtain ⟨_, g2, _, _, _, _⟩ := proc_avg_stats_spec procW2 procW
  refine ⟨?_, g2 (by decide), h3, h4, h5, h6⟩
  rw [h1 (by decide) (by decide) (by decide)]
  norm_num [procW, procW2]

/-- C10: for every pair of disk samples with matching identity triple, the
derived `IOTicks` field is 0 regardless of either sample's IOTicks value:
the field is never assigned during derivation and keeps the struct zero
value. -/
theorem disk_ioticks_zero (f s : DiskRawStats)
    (hM : f.Major = s.Major) (hm : f.Minor = s.Minor) (hn : f.Name = s.Name) :
    ∃ r, getDiskAvgStats f s = Except.ok r ∧ r.IOTicks = 0 := by
  have hcond : ¬(f.Major ≠ s.Major ∨ f.Minor ≠ s.Minor ∨ f.Name ≠ s.Name) := by
    simp [hM, hm, hn]
  exact ⟨diskAvgRecord f s, getDiskAvgStats_ok_eq hcond, rfl⟩

/-- Disk sample with a nonzero IOTicks of 7. -/
def diskIO1 : DiskRawStats :=
  { Major := 8, Minor := 0, Name := "sda", ReadIOs := 0, ReadMerges := 0, ReadSectors := 0,
    ReadTicks := 0, WriteIOs := 0, WriteMerges := 0, WriteSectors := 0, WriteTicks := 0,
    InFlight := 0, IOTicks := 7, TimeInQueue := 0, SampleTime := 100 }

/-- Disk sample with a nonzero IOTicks of 9. -/
def diskIO2 : DiskRawStats :=
  { Major := 8, Minor := 0, Name := "sda", ReadIOs := 0, ReadMerges := 0, ReadSectors := 0,
    ReadTicks := 0, WriteIOs := 0, WriteMerges := 0, WriteSectors := 0, WriteTicks := 0,
    InFlight := 0, IOTicks := 9, TimeInQueue := 0, SampleTime := 101 }

/-- Witness for C10: both samples carry nonzero IOTicks (7 and 9), yet the
derived sample's IOTicks is 0. -/
theorem disk_ioticks_zero_witness :
    diskIO1.IOTicks = 7 ∧ diskIO2.IOTicks = 9 ∧
    getDiskAvgStats diskIO1 diskIO2 = Except.ok (diskAvgOf diskIO1 diskIO2) ∧
    (diskAvgOf diskIO1 diskIO2).IOTicks = 0 := by
  obtain ⟨r, hok, hio⟩ := disk_ioticks_zero diskIO1 diskIO2 rfl rfl rfl
  have hres : diskAvgOf diskIO1 diskIO2 = r := by simp only [diskAvgOf, hok]
  exact ⟨rfl, rfl, by rw [hres]; exact hok, by rw [hres]; exact hio⟩

end Sysstats
